import Mathlib

/-!
Shallow embedding of the two source files of `mdmaas/gplugins`:
`gplugins/gmsh/xyz_mesh.py` (meshwell/gmsh parameter translation) and
`gplugins/sax/tests/test_mzi.py` (sax S-parameter demo models).

Coordinates, widths and z-levels are embedded as rationals; the S-parameter
models use real and complex numbers.  Python dictionaries are embedded as
association lists with Python insertion-order semantics.
-/

namespace Gplugins

/-- A layer's (multi)polygon, abstracted as the list of its vertices.
`shapely` emptiness corresponds to an empty vertex list, and `shapely.affinity.scale`
about the origin multiplies every coordinate by the factor. -/
abbrev Polys := List (ℚ × ℚ)

/-- An inner Python dict of numbers, e.g. a resolutions entry
`{"resolution": r, "distance": d}`. -/
abbrev PyDict := List (String × ℚ)

/-- `shapely.affinity.scale(polys, f, f, origin=(0, 0, 0))`. -/
def scale_polys (f : ℚ) (p : Polys) : Polys :=
  p.map (fun q => (f * q.1, f * q.2))

/-- Python dict lookup `d.get(k)` on an association list. -/
def dlookup {α β : Type} [DecidableEq α] (d : List (α × β)) (k : α) : Option β :=
  (d.find? (fun kv => kv.1 = k)).map Prod.snd

/-- Python dict assignment `d[k] = v`: replaces the value at an existing key
(keeping its position) or appends a new entry. -/
def dinsert {α β : Type} [DecidableEq α] (d : List (α × β)) (k : α) (v : β) :
    List (α × β) :=
  if (d.find? (fun kv => kv.1 = k)).isSome then
    d.map (fun kv => if kv.1 = k then (k, v) else kv)
  else d ++ [(k, v)]

/-- Python `dict(pairs)`: inserts the pairs in order into an empty dict
(later values win, first-insertion position is kept). -/
def dict_of_list {α β : Type} [DecidableEq α] (l : List (α × β)) : List (α × β) :=
  l.foldl (fun d kv => dinsert d kv.1 kv.2) []

/-- Python `x or 0` on an optional number: `None` and `0` are falsy. -/
def py_or_zero (o : Option ℚ) : ℚ :=
  match o with
  | none => 0
  | some w => if w = 0 then 0 else w

theorem py_or_zero_eq_getD (o : Option ℚ) : py_or_zero o = o.getD 0 := by
  cases o with
  | none => rfl
  | some w =>
    by_cases h : w = 0
    · simp [py_or_zero, h]
    · simp [py_or_zero, h]

/-! ## gdsfactory data model used by `xyz_mesh.py` -/

/-- The fields of a `gdsfactory.Port` read by `define_edgeport`. -/
structure Port where
  center : ℚ × ℚ
  width : ℚ
  orientation : ℚ
  name : String
deriving DecidableEq, Repr

/-- The `edge_ports` per-port dict consumed by `define_edgeport`
(`zmin`, `zmax`, `width_pad`, `resolution`, `physical_name`). -/
structure PortDict where
  zmin : Option ℚ
  zmax : Option ℚ
  width_pad : Option ℚ
  resolution : Option PyDict
  physical_name : Option String
deriving DecidableEq, Repr

/-- The gmsh box entity created through `meshwell.gmsh_entity.GMSH_entity` with
`model.occ.add_box`: corner `(x, y, z)`, extents `(dx, dy, dz)`, and the
meshwell bookkeeping fields. -/
structure Box where
  x : ℚ
  y : ℚ
  z : ℚ
  dx : ℚ
  dy : ℚ
  dz : ℚ
  resolution : Option PyDict
  mesh_order : ℤ
  mesh_bool : Bool
  physical_name : String
deriving DecidableEq, Repr

/-- `define_edgeport(port, port_dict, model)` from `xyz_mesh.py`.
`none` models a raised Python exception: `zmax - zmin` raises a `TypeError`
when either value is absent (before any box is constructed), and an
orientation outside {0, 90, 180, 270} leaves `dx`/`dy` unassigned so that the
box construction raises `UnboundLocalError`. -/
def define_edgeport (port : Port) (port_dict : PortDict) : Option Box :=
  match port_dict.zmin, port_dict.zmax with
  | some zmin, some zmax =>
    let dz := zmax - zmin
    let x := port.center.1
    let y := port.center.2
    let width_pad := py_or_zero port_dict.width_pad
    if port.orientation = 180 then
      some { x := x - 1, y := y - (port.width + 2 * width_pad) / 2, z := zmin,
             dx := 1, dy := port.width + 2 * width_pad, dz := dz,
             resolution := port_dict.resolution, mesh_order := 0,
             mesh_bool := false,
             physical_name := port_dict.physical_name.getD port.name }
    else if port.orientation = 0 then
      some { x := x, y := y - (port.width + 2 * width_pad) / 2, z := zmin,
             dx := 1, dy := port.width + 2 * width_pad, dz := dz,
             resolution := port_dict.resolution, mesh_order := 0,
             mesh_bool := false,
             physical_name := port_dict.physical_name.getD port.name }
    else if port.orientation = 90 then
      some { x := x - (port.width + 2 * width_pad) / 2, y := y, z := zmin,
             dx := port.width + 2 * width_pad, dy := 1, dz := dz,
             resolution := port_dict.resolution, mesh_order := 0,
             mesh_bool := false,
             physical_name := port_dict.physical_name.getD port.name }
    else if port.orientation = 270 then
      some { x := x - (port.width + 2 * width_pad) / 2, y := y - 1, z := zmin,
             dx := port.width + 2 * width_pad, dy := 1, dz := dz,
             resolution := port_dict.resolution, mesh_order := 0,
             mesh_bool := false,
             physical_name := port_dict.physical_name.getD port.name }
    else none
  | _, _ => none

/-- Claim C2: for a port oriented at 0, 90, 180 or 270 degrees and a port dict
providing zmin and zmax, `define_edgeport` creates a box extending exactly one
unit from the port center in the orientation direction, spanning
`port.width + 2 * width_pad` centered on the port center along the transverse
axis, and spanning z from zmin to zmax. -/
theorem define_edgeport_box_geometry (port : Port) (pd : PortDict) (zmin zmax : ℚ)
    (hzmin : pd.zmin = some zmin) (hzmax : pd.zmax = some zmax)
    (horient : port.orientation = 0 ∨ port.orientation = 90 ∨
      port.orientation = 180 ∨ port.orientation = 270) :
    ∃ b, define_edgeport port pd = some b ∧
      b.z = zmin ∧ b.z + b.dz = zmax ∧
      (port.orientation = 0 →
        b.x = port.center.1 ∧ b.dx = 1 ∧
        b.dy = port.width + 2 * pd.width_pad.getD 0 ∧
        b.y + b.dy / 2 = port.center.2) ∧
      (port.orientation = 180 →
        b.x = port.center.1 - 1 ∧ b.dx = 1 ∧
        b.dy = port.width + 2 * pd.width_pad.getD 0 ∧
        b.y + b.dy / 2 = port.center.2) ∧
      (port.orientation = 90 →
        b.y = port.center.2 ∧ b.dy = 1 ∧
        b.dx = port.width + 2 * pd.width_pad.getD 0 ∧
        b.x + b.dx / 2 = port.center.1) ∧
      (port.orientation = 270 →
        b.y = port.center.2 - 1 ∧ b.dy = 1 ∧
        b.dx = port.width + 2 * pd.width_pad.getD 0 ∧
        b.x + b.dx / 2 = port.center.1) := by
  rcases horient with h | h | h | h
  · simp only [define_edgeport, hzmin, hzmax, h]
    simp only [if_true]
    refine ⟨_, rfl, rfl, by ring,
      fun _ => ⟨rfl, rfl, by simp [py_or_zero_eq_getD], by ring⟩,
      fun habs => absurd habs (by norm_num),
      fun habs => absurd habs (by norm_num),
      fun habs => absurd habs (by norm_num)⟩
  · simp only [define_edgeport, hzmin, hzmax, h]
    simp only [if_true]
    refine ⟨_, rfl, rfl, by ring,
      fun habs => absurd habs (by norm_num),
      fun habs => absurd habs (by norm_num),
      fun _ => ⟨rfl, rfl, by simp [py_or_zero_eq_getD], by ring⟩,
      fun habs => absurd habs (by norm_num)⟩
  · simp only [define_edgeport, hzmin, hzmax, h]
    simp only [if_true]
    refine ⟨_, rfl, rfl, by ring,
      fun habs => absurd habs (by norm_num),
      fun _ => ⟨rfl, rfl, by simp [py_or_zero_eq_getD], by ring⟩,
      fun habs => absurd habs (by norm_num),
      fun habs => absurd habs (by norm_num)⟩
  · simp only [define_edgeport, hzmin, hzmax, h]
    simp only [if_true]
    refine ⟨_, rfl, rfl, by ring,
      fun habs => absurd habs (by norm_num),
      fun habs => absurd habs (by norm_num),
      fun habs => absurd habs (by norm_num),
      fun _ => ⟨rfl, rfl, by simp [py_or_zero_eq_getD], by ring⟩⟩

theorem define_edgeport_box_geometry_witness :
    ∃ b, define_edgeport ⟨(0, 0), 2, 0, "o1"⟩
        ⟨some (-1), some 1, none, none, none⟩ = some b ∧
      b.z = -1 ∧ b.z + b.dz = 1 ∧
      ((⟨(0, 0), 2, 0, "o1"⟩ : Port).orientation = 0 →
        b.x = 0 ∧ b.dx = 1 ∧ b.dy = 2 + 2 * (0 : ℚ) ∧ b.y + b.dy / 2 = 0) ∧
      ((⟨(0, 0), 2, 0, "o1"⟩ : Port).orientation = 180 →
        b.x = 0 - 1 ∧ b.dx = 1 ∧ b.dy = 2 + 2 * (0 : ℚ) ∧ b.y + b.dy / 2 = 0) ∧
      ((⟨(0, 0), 2, 0, "o1"⟩ : Port).orientation = 90 →
        b.y = 0 ∧ b.dy = 1 ∧ b.dx = 2 + 2 * (0 : ℚ) ∧ b.x + b.dx / 2 = 0) ∧
      ((⟨(0, 0), 2, 0, "o1"⟩ : Port).orientation = 270 →
        b.y = 0 - 1 ∧ b.dy = 1 ∧ b.dx = 2 + 2 * (0 : ℚ) ∧ b.x + b.dx / 2 = 0) := by
  have h := define_edgeport_box_geometry ⟨(0, 0), 2, 0, "o1"⟩
    ⟨some (-1), some 1, none, none, none⟩ (-1) 1 rfl rfl (Or.inl rfl)
  simpa using h

/-- Claim C9: `define_edgeport` succeeds exactly when the port orientation is
one of 0, 90, 180, 270 and the port dict carries both a zmin and a zmax; no
default z values are derived from the port's layer. -/
theorem define_edgeport_precondition (port : Port) (pd : PortDict) :
    (define_edgeport port pd).isSome ↔
      (pd.zmin.isSome ∧ pd.zmax.isSome ∧
        (port.orientation = 0 ∨ port.orientation = 90 ∨
          port.orientation = 180 ∨ port.orientation = 270)) := by
  cases hzmin : pd.zmin with
  | none => simp [define_edgeport, hzmin]
  | some a =>
    cases hzmax : pd.zmax with
    | none => simp [define_edgeport, hzmax]
    | some b =>
      simp only [define_edgeport, hzmin, hzmax, Option.isSome_some, true_and]
      split_ifs with h1 h2 h3 h4
      · exact iff_of_true (by simp) (Or.inr (Or.inr (Or.inl h1)))
      · exact iff_of_true (by simp) (Or.inl h2)
      · exact iff_of_true (by simp) (Or.inr (Or.inl h3))
      · exact iff_of_true (by simp) (Or.inr (Or.inr (Or.inr h4)))
      · exact iff_of_false (by simp) (by tauto)

/-! ## Layer stack and meshwell prisms -/

/-- The fields of a `gdsfactory.technology.LayerLevel` read by `xyz_mesh.py`:
`thickness`, `zmin`, `mesh_order`, `material`, the `(layer, datatype)` tuple of
its `LogicalLayer`, and the optional `z_to_bias` pair
`(normalized z coordinates, lateral buffers)`. -/
structure LayerLevel where
  layer : ℕ × ℕ
  thickness : ℚ
  zmin : ℚ
  material : String
  mesh_order : ℤ
  z_to_bias : Option (List ℚ × List ℚ)
deriving DecidableEq, Repr

/-- A `gdsfactory.technology.LayerStack`: an insertion-ordered dict of named
layer levels. -/
structure LayerStack where
  layers : List (String × LayerLevel)
deriving DecidableEq, Repr

/-- The fields of a `meshwell.prism.Prism` set by `define_prisms`. -/
structure Prism where
  polygons : Polys
  buffers : List (ℚ × ℚ)
  resolution : Option PyDict
  mesh_order : ℤ
  physical_name : String
  mesh_bool : Bool
deriving DecidableEq, Repr

/-- The loop body of `define_prisms` over
`buffered_layer_stack.layers.keys()`: skip a layer when its polygons are
empty or its `z_to_bias` is `None`, otherwise append a `Prism` built from the
scaled polygons and the `dict(zip(zs, buffers))` buffer dict. -/
def define_prisms_go (layer_polygons_dict : String → Polys)
    (layer_physical_map : String → Option String)
    (layer_meshbool_map : String → Option Bool)
    (res : String → Option PyDict) (scale_factor : ℚ) :
    List (String × LayerLevel) → List Prism
  | [] => []
  | (layername, layer_) :: rest =>
    if (layer_polygons_dict layername).isEmpty then
      define_prisms_go layer_polygons_dict layer_physical_map
        layer_meshbool_map res scale_factor rest
    else
      match layer_.z_to_bias with
      | none =>
        define_prisms_go layer_polygons_dict layer_physical_map
          layer_meshbool_map res scale_factor rest
      | some ztb =>
        { polygons := scale_polys scale_factor (layer_polygons_dict layername)
          buffers := dict_of_list
            ((ztb.1.map (fun c =>
                c * layer_.thickness * scale_factor +
                  layer_.zmin * scale_factor)).zip
              (ztb.2.map (fun b => b * scale_factor)))
          resolution := res layername
          mesh_order := layer_.mesh_order
          physical_name := (layer_physical_map layername).getD layername
          mesh_bool := (layer_meshbool_map layername).getD true } ::
        define_prisms_go layer_polygons_dict layer_physical_map
          layer_meshbool_map res scale_factor rest

/-- `define_prisms(layer_polygons_dict, layer_stack, layer_physical_map,
layer_meshbool_map, model, resolutions, scale_factor)` from `xyz_mesh.py`.
The call to `bufferize` (imported from `gplugins.gmsh.parse_component`) is an
explicit function parameter of the embedding; `layer_polygons_dict` and the
two maps are embedded as (total resp. optional) functions on layer names. -/
def define_prisms (bufferize : LayerStack → LayerStack)
    (layer_polygons_dict : String → Polys) (layer_stack : LayerStack)
    (layer_physical_map : String → Option String)
    (layer_meshbool_map : String → Option Bool)
    (resolutions : Option (String → Option PyDict)) (scale_factor : ℚ) :
    List Prism :=
  define_prisms_go layer_polygons_dict layer_physical_map layer_meshbool_map
    (resolutions.getD (fun _ => none)) scale_factor
    (bufferize layer_stack).layers

/-- The per-layer prism described by the specification: present iff the
layer's polygons are non-empty and its `z_to_bias` is not `None`, with the
z-level `c * thickness * scale_factor + zmin * scale_factor` mapped to the
offset `b * scale_factor` for each paired `c` and `b`, and the polygons scaled
by `scale_factor` about the origin. -/
def spec_prism_of_layer (layer_polygons_dict : String → Polys)
    (layer_physical_map : String → Option String)
    (layer_meshbool_map : String → Option Bool)
    (res : String → Option PyDict) (scale_factor : ℚ)
    (nl : String × LayerLevel) : Option Prism :=
  if (layer_polygons_dict nl.1).isEmpty then none
  else
    match nl.2.z_to_bias with
    | none => none
    | some ztb =>
      some
        { polygons := (layer_polygons_dict nl.1).map
            (fun q => (scale_factor * q.1, scale_factor * q.2))
          buffers := dict_of_list
            ((ztb.1.map (fun c =>
                c * nl.2.thickness * scale_factor +
                  nl.2.zmin * scale_factor)).zip
              (ztb.2.map (fun b => b * scale_factor)))
          resolution := res nl.1
          mesh_order := nl.2.mesh_order
          physical_name := (layer_physical_map nl.1).getD nl.1
          mesh_bool := (layer_meshbool_map nl.1).getD true }

theorem define_prisms_go_eq_filterMap (lpd : String → Polys)
    (phys : String → Option String) (mb : String → Option Bool)
    (res : String → Option PyDict) (sf : ℚ) (ls : List (String × LayerLevel)) :
    define_prisms_go lpd phys mb res sf ls =
      ls.filterMap (spec_prism_of_layer lpd phys mb res sf) := by
  induction ls with
  | nil => rfl
  | cons hd tl ih =>
    obtain ⟨layername, layer_⟩ := hd
    by_cases hempty : (lpd layername).isEmpty
    · simp [define_prisms_go, spec_prism_of_layer, hempty, ih]
    · cases hztb : layer_.z_to_bias with
      | none =>
        simp [define_prisms_go, spec_prism_of_layer, hempty, hztb, ih]
      | some ztb =>
        simp [define_prisms_go, spec_prism_of_layer, hempty, hztb, ih,
          scale_polys]

/-- Claim C1: for every layer of the bufferized layer stack, `define_prisms`
appends a prism exactly when the layer's polygons are non-empty and its
`z_to_bias` is not `None`; the prism's buffer dict maps each z-level
`c * thickness * scale_factor + zmin * scale_factor` to the offset
`b * scale_factor` for the paired entries of `z_to_bias`, and its polygons are
the layer's polygons scaled by `scale_factor` about the origin. -/
theorem define_prisms_layer_translation (bufferize : LayerStack → LayerStack)
    (lpd : String → Polys) (stack : LayerStack)
    (phys : String → Option String) (mb : String → Option Bool)
    (resolutions : Option (String → Option PyDict)) (sf : ℚ) :
    define_prisms bufferize lpd stack phys mb resolutions sf =
      (bufferize stack).layers.filterMap
        (spec_prism_of_layer lpd phys mb (resolutions.getD (fun _ => none))
          sf) :=
  define_prisms_go_eq_filterMap lpd phys mb
    (resolutions.getD (fun _ => none)) sf (bufferize stack).layers

/-- Claim C8: `define_prisms` is deterministic pure parameter translation: two
runs on equal inputs produce lists of prisms of the same length that agree,
element for element, in every field. -/
theorem define_prisms_deterministic (bufferize : LayerStack → LayerStack)
    (lpd₁ lpd₂ : String → Polys) (stack₁ stack₂ : LayerStack)
    (phys₁ phys₂ : String → Option String) (mb₁ mb₂ : String → Option Bool)
    (res₁ res₂ : Option (String → Option PyDict)) (sf₁ sf₂ : ℚ)
    (hlpd : lpd₁ = lpd₂) (hstack : stack₁ = stack₂) (hphys : phys₁ = phys₂)
    (hmb : mb₁ = mb₂) (hres : res₁ = res₂) (hsf : sf₁ = sf₂) :
    (define_prisms bufferize lpd₁ stack₁ phys₁ mb₁ res₁ sf₁).length =
      (define_prisms bufferize lpd₂ stack₂ phys₂ mb₂ res₂ sf₂).length ∧
    ∀ i (h₁ : i < (define_prisms bufferize lpd₁ stack₁ phys₁ mb₁ res₁
        sf₁).length)
      (h₂ : i < (define_prisms bufferize lpd₂ stack₂ phys₂ mb₂ res₂
        sf₂).length),
      ((define_prisms bufferize lpd₁ stack₁ phys₁ mb₁ res₁ sf₁).get
          ⟨i, h₁⟩).polygons =
        ((define_prisms bufferize lpd₂ stack₂ phys₂ mb₂ res₂ sf₂).get
          ⟨i, h₂⟩).polygons ∧
      ((define_prisms bufferize lpd₁ stack₁ phys₁ mb₁ res₁ sf₁).get
          ⟨i, h₁⟩).buffers =
        ((define_prisms bufferize lpd₂ stack₂ phys₂ mb₂ res₂ sf₂).get
          ⟨i, h₂⟩).buffers ∧
      ((define_prisms bufferize lpd₁ stack₁ phys₁ mb₁ res₁ sf₁).get
          ⟨i, h₁⟩).resolution =
        ((define_prisms bufferize lpd₂ stack₂ phys₂ mb₂ res₂ sf₂).get
          ⟨i, h₂⟩).resolution ∧
      ((define_prisms bufferize lpd₁ stack₁ phys₁ mb₁ res₁ sf₁).get
          ⟨i, h₁⟩).mesh_order =
        ((define_prisms bufferize lpd₂ stack₂ phys₂ mb₂ res₂ sf₂).get
          ⟨i, h₂⟩).mesh_order ∧
      ((define_prisms bufferize lpd₁ stack₁ phys₁ mb₁ res₁ sf₁).get
          ⟨i, h₁⟩).physical_name =
        ((define_prisms bufferize lpd₂ stack₂ phys₂ mb₂ res₂ sf₂).get
          ⟨i, h₂⟩).physical_name ∧
      ((define_prisms bufferize lpd₁ stack₁ phys₁ mb₁ res₁ sf₁).get
          ⟨i, h₁⟩).mesh_bool =
        ((define_prisms bufferize lpd₂ stack₂ phys₂ mb₂ res₂ sf₂).get
          ⟨i, h₂⟩).mesh_bool := by
  subst hlpd hstack hphys hmb hres hsf
  exact ⟨rfl, fun i h₁ h₂ => ⟨rfl, rfl, rfl, rfl, rfl, rfl⟩⟩

theorem define_prisms_deterministic_witness :
    (define_prisms id (fun _ => [((0 : ℚ), (0 : ℚ))])
        ⟨[("core", ⟨(1, 0), 1, 0, "si", 1, some ([0, 1], [0, 0])⟩)]⟩
        (fun _ => none) (fun _ => none) none 1).length =
      (define_prisms id (fun _ => [((0 : ℚ), (0 : ℚ))])
        ⟨[("core", ⟨(1, 0), 1, 0, "si", 1, some ([0, 1], [0, 0])⟩)]⟩
        (fun _ => none) (fun _ => none) none 1).length := by
  have h := define_prisms_deterministic id
    (fun _ => [((0 : ℚ), (0 : ℚ))]) (fun _ => [((0 : ℚ), (0 : ℚ))])
    ⟨[("core", ⟨(1, 0), 1, 0, "si", 1, some ([0, 1], [0, 0])⟩)]⟩
    ⟨[("core", ⟨(1, 0), 1, 0, "si", 1, some ([0, 1], [0, 0])⟩)]⟩
    (fun _ => none) (fun _ => none) (fun _ => none) (fun _ => none)
    none none 1 1 rfl rfl rfl rfl rfl rfl
  exact h.1

/-! ## Dict lemmas -/

theorem dlookup_map_update {α β : Type} [DecidableEq α] (d : List (α × β))
    (k : α) (v : β) :
    dlookup (d.map (fun kv => if kv.1 = k then (k, v) else kv)) k =
      if (d.find? (fun kv => kv.1 = k)).isSome then some v else none := by
  induction d with
  | nil => rfl
  | cons hd tl ih =>
    by_cases hk : hd.1 = k
    · rw [List.map_cons, if_pos hk]
      unfold dlookup
      rw [List.find?_cons_of_pos _ (by simp),
        List.find?_cons_of_pos _ (by simpa using hk)]
      simp
    · rw [List.map_cons, if_neg hk]
      unfold dlookup at ih ⊢
      rw [List.find?_cons_of_neg _ (by simpa using hk),
        List.find?_cons_of_neg _ (by simpa using hk)]
      exact ih

theorem dlookup_append_of_none {α β : Type} [DecidableEq α]
    (d : List (α × β)) (k : α) (v : β) (h : dlookup d k = none) :
    dlookup (d ++ [(k, v)]) k = some v := by
  induction d with
  | nil =>
    unfold dlookup
    rw [List.nil_append, List.find?_cons_of_pos _ (by simp)]
    rfl
  | cons hd tl ih =>
    by_cases hk : hd.1 = k
    · exfalso
      unfold dlookup at h
      rw [List.find?_cons_of_pos _ (by simpa using hk)] at h
      simp at h
    · unfold dlookup at h ih ⊢
      rw [List.find?_cons_of_neg _ (by simpa using hk)] at h
      rw [List.cons_append, List.find?_cons_of_neg _ (by simpa using hk)]
      exact ih h

theorem dlookup_dinsert {α β : Type} [DecidableEq α] (d : List (α × β))
    (k : α) (v : β) : dlookup (dinsert d k v) k = some v := by
  unfold dinsert
  by_cases hf : (d.find? (fun kv => kv.1 = k)).isSome
  · rw [if_pos hf, dlookup_map_update, if_pos hf]
  · rw [if_neg hf]
    have hnone : d.find? (fun kv => kv.1 = k) = none := by
      cases hx : d.find? (fun kv => kv.1 = k) with
      | none => rfl
      | some p => rw [hx] at hf; simp at hf
    exact dlookup_append_of_none d k v (by unfold dlookup; rw [hnone]; rfl)

theorem dinsert_of_lookup_none {α β : Type} [DecidableEq α] (d : List (α × β))
    (k : α) (v : β) (h : dlookup d k = none) : dinsert d k v = d ++ [(k, v)] := by
  unfold dinsert
  have hf : d.find? (fun kv => kv.1 = k) = none := by
    cases hx : d.find? (fun kv => kv.1 = k) with
    | none => rfl
    | some p => rw [dlookup, hx] at h; simp at h
  simp [hf]

/-! ## Background layer addition inside `xyz_mesh` -/

/-- `np.min` of a list of values; `none` models the exception raised on an
empty array. -/
def np_min : List ℚ → Option ℚ
  | [] => none
  | x :: xs => some (xs.foldl min x)

/-- `np.max` of a list of values; `none` models the exception raised on an
empty array. -/
def np_max : List ℚ → Option ℚ
  | [] => none
  | x :: xs => some (xs.foldl max x)

/-- The `(minx, miny, maxx, maxy)` bounds tuple of a shapely geometry. -/
structure Bounds where
  minx : ℚ
  miny : ℚ
  maxx : ℚ
  maxy : ℚ
deriving DecidableEq, Repr

/-- `unary_union(...).bounds` over the vertices of all polygons; `none` models
the empty tuple returned for an empty union (indexing it raises). -/
def shapely_bounds : Polys → Option Bounds
  | [] => none
  | p :: rest =>
    some (rest.foldl
      (fun b q =>
        ⟨min b.minx q.1, min b.miny q.2, max b.maxx q.1, max b.maxy q.2⟩)
      ⟨p.1, p.2, p.1, p.2⟩)

/-- The z values (bottom and top) contributed by each layer of a stack. -/
def layer_stack_z_values : List (String × LayerLevel) → List ℚ
  | [] => []
  | nl :: rest =>
    nl.2.zmin :: (nl.2.zmin + nl.2.thickness) :: layer_stack_z_values rest

/-- Modelled from the spec: `list_unique_layer_stack_z` is imported from
`gplugins.common.utils.parse_layer_stack`, which is not among the sources; per
the spec's layer-stack description (per-layer thickness and z-offset) it
collects the z values of the layer stack, i.e. each layer's `zmin` and
`zmin + thickness`. Only its minimum and maximum are consumed. -/
def list_unique_layer_stack_z (stack : LayerStack) : List ℚ :=
  layer_stack_z_values stack.layers

/-- The six `background_padding` components
`[-x, -y, -z, +x, +y, +z]` of `xyz_mesh`. -/
structure BgPadding where
  p0 : ℚ
  p1 : ℚ
  p2 : ℚ
  p3 : ℚ
  p4 : ℚ
  p5 : ℚ
deriving DecidableEq, Repr

/-- The default of `xyz_mesh`'s `background_mesh_order` parameter,
`2**63 - 1`. -/
def background_mesh_order_default : ℤ := 2 ^ 63 - 1

/-- The background-polygon block of `xyz_mesh` (the `if background_tag is not
None:` section): computes the bounds of the union of all layer polygons, the
min and max z of the layer stack, stores a padded, `global_scaling_premesh`-
scaled rectangle under `background_tag` in `layer_polygons_dict`, and merges a
new `LayerLevel` named `background_tag` into the layer stack. `none` models
the exception raised when the union or the layer stack is empty. -/
def add_background (layer_polygons_dict : List (String × Polys))
    (stack : LayerStack) (background_tag : Option String) (pad : BgPadding)
    (background_mesh_order : ℤ) (global_scaling_premesh : ℚ) :
    Option (List (String × Polys) × LayerStack) :=
  match background_tag with
  | none => some (layer_polygons_dict, stack)
  | some tag =>
    match shapely_bounds ((layer_polygons_dict.map Prod.snd).flatten),
        np_min (list_unique_layer_stack_z stack),
        np_max (list_unique_layer_stack_z stack) with
    | some b, some zmin, some zmax =>
      let poly := scale_polys global_scaling_premesh
        [(b.minx - pad.p0, b.miny - pad.p1),
         (b.minx - pad.p0, b.maxy + pad.p4),
         (b.maxx + pad.p3, b.maxy + pad.p4),
         (b.maxx + pad.p3, b.miny - pad.p1)]
      let lvl : LayerLevel :=
        { layer := (999, 0)
          thickness := ((zmax + pad.p5) - (zmin - pad.p2)) *
            global_scaling_premesh
          zmin := (zmin - pad.p2) * global_scaling_premesh
          material := tag
          mesh_order := background_mesh_order
          z_to_bias := none }
      some (dinsert layer_polygons_dict tag poly,
        ⟨dinsert stack.layers tag lvl⟩)
    | _, _, _ => none

/-- Claim C4 (amended): with `background_tag = None` nothing is added; with a
given `background_tag` that is not already a key of `layer_polygons_dict` or a
layer name of the stack, all pre-existing entries are kept unchanged and
exactly one entry named `background_tag` is appended to each: its rectangle
spans the union bounds expanded by padding components 0, 1, 3, 4 (scaled by
`global_scaling_premesh`), and its vertical extent runs from
`(zmin - padding[2]) * global_scaling_premesh` to
`(zmax + padding[5]) * global_scaling_premesh`. -/
theorem xyz_mesh_background_addition (lpd : List (String × Polys))
    (stack : LayerStack) (pad : BgPadding) (bmo : ℤ) (gsp : ℚ) (tag : String)
    (hfresh_d : dlookup lpd tag = none)
    (hfresh_s : dlookup stack.layers tag = none)
    (b : Bounds) (hb : shapely_bounds ((lpd.map Prod.snd).flatten) = some b)
    (zmin zmax : ℚ)
    (hzmin : np_min (list_unique_layer_stack_z stack) = some zmin)
    (hzmax : np_max (list_unique_layer_stack_z stack) = some zmax) :
    add_background lpd stack none pad bmo gsp = some (lpd, stack) ∧
    add_background lpd stack (some tag) pad bmo gsp = some
      (lpd ++ [(tag,
        [(gsp * (b.minx - pad.p0), gsp * (b.miny - pad.p1)),
         (gsp * (b.minx - pad.p0), gsp * (b.maxy + pad.p4)),
         (gsp * (b.maxx + pad.p3), gsp * (b.maxy + pad.p4)),
         (gsp * (b.maxx + pad.p3), gsp * (b.miny - pad.p1))])],
       ⟨stack.layers ++ [(tag,
         { layer := (999, 0),
           thickness := ((zmax + pad.p5) - (zmin - pad.p2)) * gsp,
           zmin := (zmin - pad.p2) * gsp,
           material := tag,
           mesh_order := bmo,
           z_to_bias := none })]⟩) := by
  refine ⟨rfl, ?_⟩
  simp only [add_background, hb, hzmin, hzmax]
  rw [dinsert_of_lookup_none lpd tag _ hfresh_d,
    dinsert_of_lookup_none stack.layers tag _ hfresh_s]
  rfl

theorem xyz_mesh_background_addition_witness :
    add_background [("core", [((0 : ℚ), (0 : ℚ)), (1, 2)])]
        ⟨[("core", ⟨(1, 0), 1, 0, "si", 1, none⟩)]⟩ none ⟨2, 2, 2, 2, 2, 2⟩
        7 1 =
      some ([("core", [((0 : ℚ), (0 : ℚ)), (1, 2)])],
        ⟨[("core", ⟨(1, 0), 1, 0, "si", 1, none⟩)]⟩) ∧
    add_background [("core", [((0 : ℚ), (0 : ℚ)), (1, 2)])]
        ⟨[("core", ⟨(1, 0), 1, 0, "si", 1, none⟩)]⟩ (some "bg")
        ⟨2, 2, 2, 2, 2, 2⟩ 7 1 =
      some ([("core", [((0 : ℚ), (0 : ℚ)), (1, 2)]),
          ("bg", [(1 * (0 - 2), 1 * (0 - 2)), (1 * (0 - 2), 1 * (2 + 2)),
            (1 * (1 + 2), 1 * (2 + 2)), (1 * (1 + 2), 1 * (0 - 2))])],
        ⟨[("core", ⟨(1, 0), 1, 0, "si", 1, none⟩),
          ("bg",
            { layer := (999, 0),
              thickness := ((1 + 2) - (0 - 2)) * 1,
              zmin := (0 - 2) * 1,
              material := "bg",
              mesh_order := 7,
              z_to_bias := none })]⟩) :=
  xyz_mesh_background_addition [("core", [((0 : ℚ), (0 : ℚ)), (1, 2)])]
    ⟨[("core", ⟨(1, 0), 1, 0, "si", 1, none⟩)]⟩ ⟨2, 2, 2, 2, 2, 2⟩ 7 1 "bg"
    (by decide) (by decide) ⟨0, 0, 1, 2⟩
    (by norm_num [shapely_bounds, min_def, max_def]) 0 1
    (by norm_num [np_min, list_unique_layer_stack_z, layer_stack_z_values,
      min_def])
    (by norm_num [np_max, list_unique_layer_stack_z, layer_stack_z_values,
      max_def])

/-- Counterexample to claim C4 as stated: when `background_tag` collides with
an existing layer name, the pre-existing entry is overwritten in place (the
dict-merge semantics of `d[k] = v` and `layers | {tag: ...}`) and no new entry
is added, so the stack keeps length one and its only level changes. -/
theorem xyz_mesh_background_overwrite_cex :
    add_background [("bg", [((0 : ℚ), (0 : ℚ))])]
        ⟨[("bg", ⟨(1, 0), 1, 0, "x", 3, none⟩)]⟩
        (some "bg") ⟨2, 2, 2, 2, 2, 2⟩ 7 1 =
      some ([("bg", [(-2, -2), (-2, 2), (2, 2), (2, -2)])],
        ⟨[("bg", ⟨(999, 0), 5, -2, "bg", 7, none⟩)]⟩) ∧
    ([("bg", (⟨(999, 0), 5, -2, "bg", 7, none⟩ : LayerLevel))] :
        List (String × LayerLevel)).length = 1 ∧
    (⟨(999, 0), 5, -2, "bg", 7, none⟩ : LayerLevel) ≠
      ⟨(1, 0), 1, 0, "x", 3, none⟩ := by
  refine ⟨?_, rfl, by decide⟩
  norm_num [add_background, shapely_bounds, np_min, np_max,
    list_unique_layer_stack_z, layer_stack_z_values, dinsert, scale_polys,
    min_def, max_def]

/-- Claim C3: prisms from `define_prisms` carry the mesh order of a layer of
the bufferized stack, edge-port boxes get mesh order 0 and are unmeshed, the
background level gets `background_mesh_order`, and that parameter's default
is `2**63 - 1 = 9223372036854775807`. -/
theorem mesh_order_assignment :
    (∀ (bufferize : LayerStack → LayerStack) (lpd : String → Polys)
        (stack : LayerStack) (phys : String → Option String)
        (mb : String → Option Bool)
        (resolutions : Option (String → Option PyDict)) (sf : ℚ) (p : Prism),
        p ∈ define_prisms bufferize lpd stack phys mb resolutions sf →
        ∃ nl ∈ (bufferize stack).layers, p.mesh_order = nl.2.mesh_order) ∧
    (∀ (port : Port) (pd : PortDict) (b : Box),
        define_edgeport port pd = some b →
        b.mesh_order = 0 ∧ b.mesh_bool = false) ∧
    (∀ (lpd : List (String × Polys)) (stack : LayerStack) (tag : String)
        (pad : BgPadding) (bmo : ℤ) (gsp : ℚ)
        (out : List (String × Polys) × LayerStack),
        add_background lpd stack (some tag) pad bmo gsp = some out →
        ∃ lvl, dlookup out.2.layers tag = some lvl ∧ lvl.mesh_order = bmo) ∧
    background_mesh_order_default = 9223372036854775807 := by
  refine ⟨?_, ?_, ?_, by decide⟩
  · intro bufferize lpd stack phys mb resolutions sf p hp
    unfold define_prisms at hp
    rw [define_prisms_go_eq_filterMap] at hp
    rcases List.mem_filterMap.mp hp with ⟨nl, hnl, hf⟩
    refine ⟨nl, hnl, ?_⟩
    unfold spec_prism_of_layer at hf
    by_cases he : (lpd nl.1).isEmpty
    · simp [he] at hf
    · cases hz : nl.2.z_to_bias with
      | none => simp [he, hz] at hf
      | some ztb =>
        simp [he, hz] at hf
        subst hf
        rfl
  · intro port pd b h
    simp only [define_edgeport] at h
    cases hz1 : pd.zmin with
    | none => rw [hz1] at h; simp at h
    | some zmin =>
      cases hz2 : pd.zmax with
      | none => rw [hz1, hz2] at h; simp at h
      | some zmax =>
        rw [hz1, hz2] at h
        split_ifs at h with h1 h2 h3 h4 <;>
          injection h with h <;> subst h <;> exact ⟨rfl, rfl⟩
  · intro lpd stack tag pad bmo gsp out h
    simp only [add_background] at h
    cases hb : shapely_bounds ((lpd.map Prod.snd).flatten) with
    | none => rw [hb] at h; simp at h
    | some b =>
      cases hmin : np_min (list_unique_layer_stack_z stack) with
      | none => rw [hb, hmin] at h; simp at h
      | some zmin =>
        cases hmax : np_max (list_unique_layer_stack_z stack) with
        | none => rw [hb, hmin, hmax] at h; simp at h
        | some zmax =>
          rw [hb, hmin, hmax] at h
          simp only [Option.some.injEq] at h
          subst h
          exact ⟨_, dlookup_dinsert _ _ _, rfl⟩

theorem mesh_order_assignment_witness :
    (⟨0, -1, -1, 1, 2, 2, none, 0, false, "o1"⟩ : Box).mesh_order = 0 ∧
    (⟨0, -1, -1, 1, 2, 2, none, 0, false, "o1"⟩ : Box).mesh_bool = false :=
  mesh_order_assignment.2.1 ⟨(0, 0), 2, 0, "o1"⟩
    ⟨some (-1), some 1, none, none, none⟩
    ⟨0, -1, -1, 1, 2, 2, none, 0, false, "o1"⟩
    (by norm_num [define_edgeport, py_or_zero])

/-! ## The `resolutions` deepcopy step of `xyz_mesh` -/

/-- A heap of inner resolution dicts; a Python inner-dict object is an
address into this heap, so that in-place mutation is observable. -/
structure ResHeap where
  cells : List PyDict
deriving DecidableEq, Repr

/-- The `resolutions` dict as the caller holds it: layer name to the address
of the inner `{"resolution": ..., "distance": ...}` dict object. -/
abbrev ResRef := List (String × ℕ)

/-- Dereference an inner-dict address. -/
def heap_read (h : ResHeap) (a : ℕ) : Option PyDict := h.cells[a]?

/-- Overwrite the inner dict stored at an address. -/
def heap_write (h : ResHeap) (a : ℕ) (c : PyDict) : ResHeap := ⟨h.cells.set a c⟩

/-- `copy.deepcopy(resolutions)`: allocates a fresh cell (appended at the end
of the heap) holding a copy of each entry's inner dict, and returns the dict
of fresh addresses. -/
def deepcopy_dict (h : ResHeap) : ResRef → ResHeap × ResRef
  | [] => (h, [])
  | kv :: rest =>
    let fresh := h.cells.length
    let h1 : ResHeap := ⟨h.cells ++ [(heap_read h kv.2).getD []]⟩
    let hd2 := deepcopy_dict h1 rest
    (hd2.1, (kv.1, fresh) :: hd2.2)

/-- `r["resolution"] *= global_scaling_premesh` applied to one inner dict. -/
def cell_scale (c : PyDict) (gsp : ℚ) : PyDict :=
  c.map (fun kv => if kv.1 = "resolution" then (kv.1, kv.2 * gsp) else kv)

/-- `for r in resolutions.values(): r["resolution"] *= global_scaling_premesh`
mutating the heap in place; `none` models the `KeyError` raised when an inner
dict lacks the "resolution" key (or a dangling address, which cannot occur). -/
def scale_resolutions_inplace (h : ResHeap) (gsp : ℚ) :
    ResRef → Option ResHeap
  | [] => some h
  | kv :: rest =>
    match heap_read h kv.2 with
    | none => none
    | some c =>
      if (dlookup c "resolution").isSome then
        scale_resolutions_inplace (heap_write h kv.2 (cell_scale c gsp)) gsp
          rest
      else none

/-- The tail of `xyz_mesh`: `resolutions = copy.deepcopy(resolutions)`
followed by the truthiness test and the in-place scaling loop on the copy
(an absent or empty dict is replaced by `{}`). Returns the final heap
together with the local `resolutions` binding. -/
def xyz_mesh_resolutions_step (h : ResHeap) (resolutions : Option ResRef)
    (gsp : ℚ) : Option (ResHeap × ResRef) :=
  match resolutions with
  | none => some (h, [])
  | some d =>
    let hd2 := deepcopy_dict h d
    if hd2.2.isEmpty then some (hd2.1, [])
    else (scale_resolutions_inplace hd2.1 gsp hd2.2).map
      (fun h2 => (h2, hd2.2))

theorem deepcopy_dict_cells (d : ResRef) (h : ResHeap) :
    ∃ ext, (deepcopy_dict h d).1.cells = h.cells ++ ext := by
  induction d generalizing h with
  | nil => exact ⟨[], by simp [deepcopy_dict]⟩
  | cons kv rest ih =>
    obtain ⟨ext, hext⟩ := ih ⟨h.cells ++ [(heap_read h kv.2).getD []]⟩
    exact ⟨[(heap_read h kv.2).getD []] ++ ext, by
      simp only [deepcopy_dict, hext]
      simp [List.append_assoc]⟩

theorem deepcopy_dict_fresh (d : ResRef) (h : ResHeap) :
    ∀ kv ∈ (deepcopy_dict h d).2, h.cells.length ≤ kv.2 := by
  induction d generalizing h with
  | nil => intro kv hkv; simp [deepcopy_dict] at hkv
  | cons kv0 rest ih =>
    intro kv hkv
    simp only [deepcopy_dict, List.mem_cons] at hkv
    rcases hkv with rfl | hkv
    · exact le_refl _
    · have hle := ih ⟨h.cells ++ [(heap_read h kv0.2).getD []]⟩ kv hkv
      simp only [List.length_append, List.length_singleton] at hle
      omega

theorem scale_resolutions_inplace_preserves (d : ResRef) (h h2 : ResHeap)
    (gsp : ℚ) (n : ℕ) (hge : ∀ kv ∈ d, n ≤ kv.2)
    (hrun : scale_resolutions_inplace h gsp d = some h2) :
    ∀ a < n, heap_read h2 a = heap_read h a := by
  induction d generalizing h with
  | nil =>
    intro a ha
    simp only [scale_resolutions_inplace, Option.some.injEq] at hrun
    rw [hrun]
  | cons kv rest ih =>
    intro a ha
    simp only [scale_resolutions_inplace] at hrun
    cases hc : heap_read h kv.2 with
    | none => rw [hc] at hrun; simp at hrun
    | some c =>
      simp only [hc] at hrun
      by_cases hkey : (dlookup c "resolution").isSome
      · rw [if_pos hkey] at hrun
        have htail := ih (heap_write h kv.2 (cell_scale c gsp))
          (fun kv' hkv' => hge kv' (List.mem_cons_of_mem _ hkv')) hrun a ha
        rw [htail]
        have hne : a ≠ kv.2 := by
          have := hge kv (List.mem_cons_self _ _)
          omega
        unfold heap_read heap_write
        exact List.getElem?_set_ne (Ne.symm hne)
      · rw [if_neg hkey] at hrun; simp at hrun

/-- Claim C10: `xyz_mesh` never mutates the caller's `resolutions` argument:
the scaling by `global_scaling_premesh` happens on a deep copy, so every inner
dict the caller's dictionary points to reads back unchanged after the step. -/
theorem xyz_mesh_resolutions_no_mutation (h : ResHeap) (d : ResRef) (gsp : ℚ)
    (hvalid : ∀ kv ∈ d, kv.2 < h.cells.length) (h2 : ResHeap) (d2 : ResRef)
    (hrun : xyz_mesh_resolutions_step h (some d) gsp = some (h2, d2)) :
    ∀ kv ∈ d, heap_read h2 kv.2 = heap_read h kv.2 := by
  intro kv hkv
  have ha : kv.2 < h.cells.length := hvalid kv hkv
  obtain ⟨ext, hext⟩ := deepcopy_dict_cells d h
  have hcopyread : heap_read (deepcopy_dict h d).1 kv.2 = heap_read h kv.2 := by
    unfold heap_read
    rw [hext]
    exact List.getElem?_append_left ha
  simp only [xyz_mesh_resolutions_step] at hrun
  by_cases hemp : (deepcopy_dict h d).2.isEmpty
  · rw [if_pos hemp] at hrun
    simp only [Option.some.injEq, Prod.mk.injEq] at hrun
    rw [← hrun.1]
    exact hcopyread
  · rw [if_neg hemp] at hrun
    cases hs : scale_resolutions_inplace (deepcopy_dict h d).1 gsp
        (deepcopy_dict h d).2 with
    | none => rw [hs] at hrun; simp at hrun
    | some hh =>
      rw [hs] at hrun
      simp only [Option.map_some', Option.some.injEq, Prod.mk.injEq] at hrun
      have hpres := scale_resolutions_inplace_preserves (deepcopy_dict h d).2
        (deepcopy_dict h d).1 hh gsp h.cells.length (deepcopy_dict_fresh d h)
        hs kv.2 ha
      rw [← hrun.1, hpres]
      exact hcopyread

theorem xyz_mesh_resolutions_no_mutation_witness :
    heap_read ⟨[[("resolution", (1 : ℚ))], [("resolution", 1 * 3)]]⟩ 0 =
      heap_read ⟨[[("resolution", (1 : ℚ))]]⟩ 0 := by
  have h := xyz_mesh_resolutions_no_mutation ⟨[[("resolution", (1 : ℚ))]]⟩
    [("core", 0)] 3 (by decide)
    ⟨[[("resolution", (1 : ℚ))], [("resolution", 1 * 3)]]⟩ [("core", 1)] rfl
  exact h ("core", 0) (by decide)

/-! ## sax S-parameter demo models (`test_mzi.py`) -/

/-- A sax `SDict`: an insertion-ordered dict from port pairs to complex
S-parameters. -/
abbrev SDict := List ((String × String) × ℂ)

/-- `sax.reciprocal(sdict)`: the dict update `{**sdict, **transposed}` where
`transposed` carries each coefficient at the reversed port pair. -/
def sax_reciprocal (s : SDict) : SDict :=
  (s.map (fun kv => ((kv.1.2, kv.1.1), kv.2))).foldl
    (fun d kv => dinsert d kv.1 kv.2) s

/-- `straight(wl, length, neff)` from `test_mzi.py`:
`sax.reciprocal({("o1", "o2"): exp(2j * pi * neff * length / wl)})`. -/
noncomputable def straight (wl length neff : ℝ) : SDict :=
  sax_reciprocal [(("o1", "o2"),
    Complex.exp (2 * Complex.I * Real.pi * neff * length / wl))]

/-- `mmi1x2()` from `test_mzi.py`: a perfect 1x2 splitter,
`sax.reciprocal({("o1", "o2"): 0.5 ** 0.5, ("o1", "o3"): 0.5 ** 0.5})`. -/
noncomputable def mmi1x2 : SDict :=
  sax_reciprocal [(("o1", "o2"), (((0.5 : ℝ) ^ (0.5 : ℝ) : ℝ) : ℂ)),
    (("o1", "o3"), (((0.5 : ℝ) ^ (0.5 : ℝ) : ℝ) : ℂ))]

/-- `bend_euler(wl, length)` from `test_mzi.py`:
`{k: 0.99 * v for k, v in straight(wl=wl, length=length).items()}` (with
`straight`'s default `neff = 2.4`). -/
noncomputable def bend_euler (wl length : ℝ) : SDict :=
  (straight wl length 2.4).map (fun kv => (kv.1, (0.99 : ℂ) * kv.2))

theorem dlookup_map_value {α β γ : Type} [DecidableEq α] (l : List (α × β))
    (f : β → γ) (k : α) :
    dlookup (l.map (fun kv => (kv.1, f kv.2))) k = (dlookup l k).map f := by
  induction l with
  | nil => rfl
  | cons hd tl ih =>
    by_cases hk : hd.1 = k
    · unfold dlookup
      rw [List.map_cons, List.find?_cons_of_pos _ (by simpa using hk),
        List.find?_cons_of_pos _ (by simpa using hk)]
      rfl
    · unfold dlookup at ih ⊢
      rw [List.map_cons, List.find?_cons_of_neg _ (by simpa using hk),
        List.find?_cons_of_neg _ (by simpa using hk)]
      exact ih

/-- Claim C6: for a positive wavelength, `straight` returns the reciprocal
S-dict whose only independent coefficient, at `("o1", "o2")`, equals
`exp(2j * pi * neff * length / wl)`; that coefficient has magnitude 1, so the
straight model is lossless at every frequency. -/
theorem straight_lossless (wl length neff : ℝ) (h : 0 < wl) :
    straight wl length neff =
      [(("o1", "o2"),
        Complex.exp (2 * Complex.I * Real.pi * neff * length / wl)),
       (("o2", "o1"),
        Complex.exp (2 * Complex.I * Real.pi * neff * length / wl))] ∧
    Complex.abs
      (Complex.exp (2 * Complex.I * Real.pi * neff * length / wl)) = 1 := by
  constructor
  · rfl
  · have hz : (2 * Complex.I * Real.pi * neff * length / wl : ℂ) =
        ((2 * Real.pi * neff * length / wl : ℝ) : ℂ) * Complex.I := by
      push_cast
      ring
    rw [hz, Complex.abs_exp_ofReal_mul_I]

theorem straight_lossless_witness :
    straight 1 1 1 =
      [(("o1", "o2"),
        Complex.exp (2 * Complex.I * Real.pi * ((1 : ℝ) : ℂ) * ((1 : ℝ) : ℂ) /
          ((1 : ℝ) : ℂ))),
       (("o2", "o1"),
        Complex.exp (2 * Complex.I * Real.pi * ((1 : ℝ) : ℂ) * ((1 : ℝ) : ℂ) /
          ((1 : ℝ) : ℂ)))] ∧
    Complex.abs
      (Complex.exp (2 * Complex.I * Real.pi * ((1 : ℝ) : ℂ) * ((1 : ℝ) : ℂ) /
        ((1 : ℝ) : ℂ))) = 1 :=
  straight_lossless 1 1 1 one_pos

/-- Claim C7: `mmi1x2` returns the reciprocal S-dict whose independent
coefficients, at `("o1", "o2")` and `("o1", "o3")`, both equal `0.5 ** 0.5`,
whose squared magnitude is exactly one half: each output port carries half of
the input power, independent of wavelength. -/
theorem mmi1x2_balanced :
    mmi1x2 =
      [(("o1", "o2"), (((0.5 : ℝ) ^ (0.5 : ℝ) : ℝ) : ℂ)),
       (("o1", "o3"), (((0.5 : ℝ) ^ (0.5 : ℝ) : ℝ) : ℂ)),
       (("o2", "o1"), (((0.5 : ℝ) ^ (0.5 : ℝ) : ℝ) : ℂ)),
       (("o3", "o1"), (((0.5 : ℝ) ^ (0.5 : ℝ) : ℝ) : ℂ))] ∧
    Complex.abs (((0.5 : ℝ) ^ (0.5 : ℝ) : ℝ) : ℂ) ^ 2 = 1 / 2 := by
  constructor
  · rfl
  · have hnn : (0 : ℝ) ≤ (0.5 : ℝ) ^ (0.5 : ℝ) :=
      Real.rpow_nonneg (by norm_num) _
    rw [Complex.abs_ofReal, abs_of_nonneg hnn,
      ← Real.rpow_natCast ((0.5 : ℝ) ^ (0.5 : ℝ)) 2,
      ← Real.rpow_mul (by norm_num : (0 : ℝ) ≤ 0.5),
      show (0.5 : ℝ) * ((2 : ℕ) : ℝ) = 1 by norm_num, Real.rpow_one]
    norm_num

/-- Claim C5: `bend_euler` has exactly the port-pair keys of `straight` (at
the default `neff = 2.4`), each of its coefficients is `0.99` times the
corresponding straight coefficient, and its power transmission is `0.9801`
times the straight power at every key. -/
theorem bend_euler_vs_straight (wl length : ℝ) :
    (bend_euler wl length).map Prod.fst =
      (straight wl length 2.4).map Prod.fst ∧
    (∀ k, dlookup (bend_euler wl length) k =
      (dlookup (straight wl length 2.4) k).map (fun v => (0.99 : ℂ) * v)) ∧
    (∀ k, Complex.abs ((dlookup (bend_euler wl length) k).getD 0) ^ 2 =
      (0.9801 : ℝ) *
        Complex.abs ((dlookup (straight wl length 2.4) k).getD 0) ^ 2) := by
  refine ⟨?_, ?_, ?_⟩
  · unfold bend_euler
    rw [List.map_map]
    rfl
  · intro k
    unfold bend_euler
    exact dlookup_map_value _ _ k
  · intro k
    have hmap := dlookup_map_value (straight wl length 2.4)
      (fun v => (0.99 : ℂ) * v) k
    unfold bend_euler
    rw [hmap]
    cases dlookup (straight wl length 2.4) k with
    | none => simp
    | some v =>
      simp only [Option.map_some', Option.getD_some]
      have hcast : (0.99 : ℂ) = ((0.99 : ℝ) : ℂ) := by norm_num
      rw [map_mul, hcast, Complex.abs_ofReal,
        abs_of_nonneg (by norm_num : (0 : ℝ) ≤ 0.99), mul_pow]
      norm_num

end Gplugins
